import Mathlib

/-!
Shallow embedding of the MySQL session store of tower-sessions-stores
(src/sqlx-store/src/mysql_store.rs) and proofs about its contract.

The store persists session records in one table `{schema}`.`{session}`
with columns `id` (char(22) primary key), `data` (blob), `expiry_date`
(timestamp(6)).  The connection pool, the rmp_serde codec, and the clock
are external collaborators; they are modelled as explicit parameters:

* the table's committed contents is a `List Row` threaded through each
  operation (the pool's execution of a statement against that table);
* backend failure of a statement is a parameter `backend : Option Nat`
  (`some e` means the pool/driver reports error `e`, `none` means the
  statement executes normally), mirroring `map_err(SqlxStoreError::Sqlx)`;
* the codec is a `Codec` record of `encode`/`decode` functions returning
  `Except`, mirroring `rmp_serde::to_vec` / `rmp_serde::from_slice`;
* the clock is a parameter `now : Int` (a UTC timestamp with sub-second
  precision, modelled as an integer number of ticks), standing for
  `OffsetDateTime::now_utc()` in `load` and `utc_timestamp()` in
  `delete_expired`.
-/

set_option autoImplicit false

/-- A session record, as handed to `save` and returned by `load`
(`tower_sessions_core::session::Record`).  The session identifier is its
22-character string form (`record.id.to_string()`), the session content
is an opaque payload never inspected by the store, and `expiry_date` is
an absolute UTC timestamp. -/
structure Record where
  id : String
  data : List Nat
  expiry_date : Int
deriving DecidableEq, Repr

/-- One committed row of the session table: `id` (primary key),
`data` (the blob written by `save`, i.e. the rmp_serde encoding of the
whole record), `expiry_date`. -/
structure Row where
  id : String
  data : List Nat
  expiry_date : Int
deriving DecidableEq, Repr

/-- The error enum `SqlxStoreError` of the crate: a wrapped sqlx/driver
error (`Sqlx`, the spec's BackendError), an `rmp_serde` encode error, or
an `rmp_serde` decode error.  The wrapped payloads are opaque, modelled
as numbers. -/
inductive SqlxStoreError where
  | Sqlx : Nat → SqlxStoreError
  | Encode : Nat → SqlxStoreError
  | Decode : Nat → SqlxStoreError
deriving DecidableEq, Repr

/-- The external codec (rmp_serde in the source): serializes a whole
`Record` to a byte payload and back, either step may fail. -/
structure Codec where
  encode : Record → Except Nat (List Nat)
  decode : List Nat → Except Nat Record

/-- The `MySqlStore` struct: its configuration is the schema and table
name used to build every SQL statement.  The `pool` field is the
external connection pool and carries no store-level state, so it is not
part of the embedded configuration. -/
structure MySqlStore where
  schema_name : String
  table_name : String
deriving DecidableEq, Repr

/-- `MySqlStore::new`: the default configuration, schema
`tower_sessions` and table `session`. -/
def MySqlStore.new : MySqlStore :=
  { schema_name := "tower_sessions", table_name := "session" }

/-- Modelled from the spec: "Table/namespace names are configuration
... callers may override at construction time."  The constructor that
overrides both names is not part of src/ (only `new` is); it is the
evident record constructor. -/
def MySqlStore.with_names (schema_name table_name : String) : MySqlStore :=
  { schema_name := schema_name, table_name := table_name }

/-- The SQL text built by `save` (`format!` at lines 106-116): the
store's schema and table names interpolated into the upsert statement. -/
def MySqlStore.save_query (s : MySqlStore) : String :=
  "\n            insert into `" ++ s.schema_name ++ "`.`" ++ s.table_name ++
  "`\n              (id, data, expiry_date) values (?, ?, ?)\n            on duplicate key update\n              data = values(data),\n              expiry_date = values(expiry_date)\n            "

/-- The SQL text built by `load` (`format!` at lines 129-136). -/
def MySqlStore.load_query (s : MySqlStore) : String :=
  "\n            select data from `" ++ s.schema_name ++ "`.`" ++ s.table_name ++
  "`\n            where id = ? and expiry_date > ?\n            "

/-- The SQL text built by `delete` (`format!` at lines 154-158). -/
def MySqlStore.delete_query (s : MySqlStore) : String :=
  "delete from `" ++ s.schema_name ++ "`.`" ++ s.table_name ++ "` where id = ?"

/-- The SQL text built by `delete_expired` (`format!` at lines 87-94). -/
def MySqlStore.delete_expired_query (s : MySqlStore) : String :=
  "\n            delete from `" ++ s.schema_name ++ "`.`" ++ s.table_name ++
  "`\n            where expiry_date < utc_timestamp()\n            "

/-- The `on duplicate key update` arm of `save`'s statement: a row whose
primary key equals the inserted id gets its `data` and `expiry_date`
overwritten in place, the key unchanged; any other row is untouched. -/
def replaceRow (id : String) (blob : List Nat) (expiry : Int) (row : Row) : Row :=
  if row.id == id then { row with data := blob, expiry_date := expiry } else row

/-- Semantics of the upsert statement issued by `save`:
`insert ... values (?, ?, ?) on duplicate key update data = values(data),
expiry_date = values(expiry_date)`.  If a row with the primary key
already exists its `data` and `expiry_date` are overwritten in place,
otherwise a new row is inserted. -/
def upsert (id : String) (blob : List Nat) (expiry : Int) (tbl : List Row) : List Row :=
  if tbl.any (fun row => row.id == id) then
    tbl.map (replaceRow id blob expiry)
  else
    tbl ++ [{ id := id, data := blob, expiry_date := expiry }]

/-- Outcome of a `save` call: the returned `Result`, the table contents
after the call, and how many statements were issued to the backend. -/
structure SaveOut where
  result : Except SqlxStoreError Unit
  table : List Row
  stmts : Nat

/-- `MySqlStore::save` (lines 105-126): encode the whole record with the
codec — failure surfaces as `Encode` before any statement is issued —
then execute the upsert statement binding
(`record.id.to_string()`, blob, `record.expiry_date`); a driver failure
surfaces as `Sqlx`. -/
def MySqlStore.save (c : Codec) (backend : Option Nat) (r : Record) (tbl : List Row) :
    SaveOut :=
  match c.encode r with
  | .error e => ⟨.error (.Encode e), tbl, 0⟩
  | .ok blob =>
    match backend with
    | some e => ⟨.error (.Sqlx e), tbl, 1⟩
    | none => ⟨.ok (), upsert r.id blob r.expiry_date tbl, 1⟩

/-- The row filter of `load`'s query:
`where id = ? and expiry_date > ?`, bound to the session id and
`OffsetDateTime::now_utc()`. -/
def loadPred (session_id : String) (now : Int) (row : Row) : Bool :=
  row.id == session_id && decide (now < row.expiry_date)

/-- `MySqlStore::load` (lines 128-151): fetch the optional `data` column
of the first row matching `id = ? and expiry_date > ?`; when a row comes
back decode its blob with the codec (failure surfaces as `Decode`),
when none does return `none`. -/
def MySqlStore.load (c : Codec) (backend : Option Nat) (session_id : String) (now : Int)
    (tbl : List Row) : Except SqlxStoreError (Option Record) :=
  match backend with
  | some e => .error (.Sqlx e)
  | none =>
    match tbl.find? (loadPred session_id now) with
    | none => .ok none
    | some row =>
      match c.decode row.data with
      | .error e => .error (.Decode e)
      | .ok r => .ok (some r)

/-- `MySqlStore::delete` (lines 153-166): execute
`delete from ... where id = ?`; the committed table keeps exactly the
rows whose id differs. -/
def MySqlStore.delete (backend : Option Nat) (session_id : String) (tbl : List Row) :
    Except SqlxStoreError (List Row) :=
  match backend with
  | some e => .error (.Sqlx e)
  | none => .ok (tbl.filter fun row => !(row.id == session_id))

/-- `MySqlStore::delete_expired` (lines 86-100): execute
`delete from ... where expiry_date < utc_timestamp()`; the committed
table keeps exactly the rows whose expiry is not strictly in the past. -/
def MySqlStore.delete_expired (backend : Option Nat) (now : Int) (tbl : List Row) :
    Except SqlxStoreError (List Row) :=
  match backend with
  | some e => .error (.Sqlx e)
  | none => .ok (tbl.filter fun row => !(decide (row.expiry_date < now)))

/-- The DDL state `migrate` acts on: which schemas and which
(schema, table) pairs exist. -/
structure SchemaDB where
  schemas : List String
  tables : List (String × String)
deriving DecidableEq, Repr

/-- Semantics of `create schema if not exists {schema_name}`. -/
def createSchemaIfNotExists (name : String) (db : SchemaDB) : SchemaDB :=
  if name ∈ db.schemas then db else { db with schemas := db.schemas ++ [name] }

/-- Semantics of `create table if not exists {schema_name}.{table_name}`. -/
def createTableIfNotExists (sn tn : String) (db : SchemaDB) : SchemaDB :=
  if (sn, tn) ∈ db.tables then db else { db with tables := db.tables ++ [(sn, tn)] }

/-- `MySqlStore::migrate` (lines 55-81): begin a transaction, create the
schema if absent, create the table if absent, commit.  `b1`, `b2`, `bc`
model the pool's verdict on the three round-trips (two DDL statements
and the commit); any failure aborts the transaction, leaving the
committed DDL state unchanged. -/
def MySqlStore.migrate (s : MySqlStore) (b1 b2 bc : Option Nat) (db : SchemaDB) :
    Except Nat Unit × SchemaDB :=
  match b1 with
  | some e => (.error e, db)
  | none =>
    let db1 := createSchemaIfNotExists s.schema_name db
    match b2 with
    | some e => (.error e, db)
    | none =>
      let db2 := createTableIfNotExists s.schema_name s.table_name db1
      match bc with
      | some e => (.error e, db)
      | none => (.ok (), db2)

/-! Concrete codec and data used by the witnesses. -/

/-- A concrete record used by the witnesses. -/
def rec0 : Record :=
  { id := "a", data := [1, 2], expiry_date := 10 }

/-- A second concrete record with the same session id as `rec0` but a
different payload and expiry, used by the upsert witnesses. -/
def rec1 : Record :=
  { id := "a", data := [3], expiry_date := 20 }

/-- A concrete codec for the witnesses: encodes `rec0` to the blob `[7]`
and `rec1` to `[8]`, rejects everything else, and decodes those two
blobs back. -/
def testCodec : Codec where
  encode := fun r =>
    if r = rec0 then .ok [7] else if r = rec1 then .ok [8] else .error 0
  decode := fun b =>
    if b = [7] then .ok rec0 else if b = [8] then .ok rec1 else .error 0

/-! ## Shared lemmas about the embedded operations -/

/-- The row filter of `load` holds exactly on rows with the requested id
and an expiry strictly in the future. -/
theorem loadPred_eq_true {session_id : String} {now : Int} {row : Row} :
    loadPred session_id now row = true ↔
      row.id = session_id ∧ now < row.expiry_date := by
  simp [loadPred]

/-- On a table with pairwise distinct ids, a predicate that pins down a
single id is found at the unique row carrying it. -/
theorem find?_eq_of_unique_id {p : Row → Bool} (tbl : List Row) (row : Row)
    (hnodup : (tbl.map Row.id).Nodup) (hmem : row ∈ tbl) (hp : p row = true)
    (hid : ∀ r' : Row, p r' = true → r'.id = row.id) :
    tbl.find? p = some row := by
  induction tbl with
  | nil => cases hmem
  | cons head rest ih =>
    rw [List.map_cons, List.nodup_cons] at hnodup
    by_cases hph : p head = true
    · have hhead : head = row := by
        rcases List.mem_cons.mp hmem with h | h
        · exact h.symm
        · exact absurd (List.mem_map_of_mem Row.id h) ((hid head hph) ▸ hnodup.1)
      rw [hhead]
      exact List.find?_cons_of_pos rest hp
    · have hrest : row ∈ rest := by
        rcases List.mem_cons.mp hmem with h | h
        · exact absurd (h ▸ hp) hph
        · exact h
      rw [List.find?_cons_of_neg rest hph]
      exact ih hnodup.2 hrest

/-- `load` answers `Ok(None)` exactly when every row carrying the id is
already expired (in particular when no row carries it). -/
theorem load_ok_none_iff (c : Codec) (session_id : String) (now : Int) (tbl : List Row) :
    MySqlStore.load c none session_id now tbl = .ok none ↔
      ∀ row ∈ tbl, row.id = session_id → row.expiry_date ≤ now := by
  cases hfind : tbl.find? (loadPred session_id now) with
  | none =>
    simp only [MySqlStore.load, hfind]
    constructor
    · intro _ row hrow hrid
      have hnp := List.find?_eq_none.mp hfind row hrow
      rw [loadPred_eq_true] at hnp
      push_neg at hnp
      exact hnp hrid
    · intro _; trivial
  | some row =>
    have hp := loadPred_eq_true.mp (List.find?_some hfind)
    have hmem := List.mem_of_find?_eq_some hfind
    constructor
    · intro h
      cases hdec : c.decode row.data <;> simp [MySqlStore.load, hfind, hdec] at h
    · intro h
      exact absurd (h row hmem hp.1) (not_le.mpr hp.2)

/-- `load` answers `Ok(Some r)` exactly when a row carrying the id with
an unexpired expiry is present and its blob decodes to `r` (assuming the
primary-key invariant: pairwise distinct ids). -/
theorem load_ok_some_iff (c : Codec) (session_id : String) (now : Int) (tbl : List Row)
    (hnodup : (tbl.map Row.id).Nodup) (r : Record) :
    MySqlStore.load c none session_id now tbl = .ok (some r) ↔
      ∃ row ∈ tbl, row.id = session_id ∧ now < row.expiry_date ∧
        c.decode row.data = .ok r := by
  constructor
  · intro h
    cases hfind : tbl.find? (loadPred session_id now) with
    | none => simp [MySqlStore.load, hfind] at h
    | some row =>
      have hp := loadPred_eq_true.mp (List.find?_some hfind)
      have hmem := List.mem_of_find?_eq_some hfind
      cases hdec : c.decode row.data with
      | error e => simp [MySqlStore.load, hfind, hdec] at h
      | ok r' =>
        have hr : r' = r := by
          simpa [MySqlStore.load, hfind, hdec] using h
        exact ⟨row, hmem, hp.1, hp.2, hr ▸ hdec⟩
  · rintro ⟨row, hmem, hrid, hlt, hdec⟩
    have hfind : tbl.find? (loadPred session_id now) = some row :=
      find?_eq_of_unique_id tbl row hnodup hmem
        (loadPred_eq_true.mpr ⟨hrid, hlt⟩)
        (fun r' hr' => ((loadPred_eq_true.mp hr').1).trans hrid.symm)
    simp [MySqlStore.load, hfind, hdec]

/-- On a table with pairwise distinct ids, deleting one id keeps at
least all rows but one. -/
theorem length_le_delete_length_add_one (session_id : String) (tbl : List Row)
    (hnodup : (tbl.map Row.id).Nodup) :
    tbl.length ≤ (tbl.filter fun row => !(row.id == session_id)).length + 1 := by
  induction tbl with
  | nil => simp
  | cons head rest ih =>
    rw [List.map_cons, List.nodup_cons] at hnodup
    by_cases h : head.id = session_id
    · have hrest : rest.filter (fun row => !(row.id == session_id)) = rest := by
        rw [List.filter_eq_self]
        intro a ha
        simp only [Bool.not_eq_true', beq_eq_false_iff_ne]
        intro haid
        refine hnodup.1 ?_
        rw [h, ← haid]
        exact List.mem_map_of_mem Row.id ha
      simp [List.filter_cons, h, hrest]
    · have hb : (head.id == session_id) = false := beq_eq_false_iff_ne.mpr h
      simp only [List.filter_cons, hb, Bool.not_false, if_pos rfl, List.length_cons]
      exact Nat.succ_le_succ (ih hnodup.2)

/-- The duplicate-key update never changes a row's primary key. -/
theorem replaceRow_id (id : String) (blob : List Nat) (expiry : Int) (row : Row) :
    (replaceRow id blob expiry row).id = row.id := by
  unfold replaceRow; split <;> rfl

/-- A row with a different primary key is untouched by the update. -/
theorem replaceRow_of_ne {id : String} {blob : List Nat} {expiry : Int} {row : Row}
    (h : ¬ row.id = id) : replaceRow id blob expiry row = row := by
  simp [replaceRow, h]

/-- The row carrying the primary key is fully overwritten. -/
theorem replaceRow_of_eq {id : String} {blob : List Nat} {expiry : Int} {row : Row}
    (h : row.id = id) :
    replaceRow id blob expiry row =
      { id := id, data := blob, expiry_date := expiry } := by
  cases row
  simp_all [replaceRow]

/-- The update leaves the table's id column unchanged. -/
theorem map_id_map_replaceRow (id : String) (blob : List Nat) (expiry : Int)
    (tbl : List Row) :
    (tbl.map (replaceRow id blob expiry)).map Row.id = tbl.map Row.id := by
  rw [List.map_map]
  exact List.map_congr_left (fun a _ => replaceRow_id id blob expiry a)

/-- Upsert preserves the primary-key invariant (pairwise distinct ids). -/
theorem upsert_nodup (id : String) (blob : List Nat) (expiry : Int) (tbl : List Row)
    (hnodup : (tbl.map Row.id).Nodup) :
    ((upsert id blob expiry tbl).map Row.id).Nodup := by
  unfold upsert; split
  case isTrue => rw [map_id_map_replaceRow]; exact hnodup
  case isFalse hany =>
    rw [List.map_append, List.map_cons, List.map_nil, List.nodup_append]
    refine ⟨hnodup, List.nodup_singleton id, ?_⟩
    intro x hx hx1
    rw [List.mem_singleton] at hx1
    obtain ⟨row, hrow, hrowid⟩ := List.mem_map.mp hx
    have hall := List.any_eq_false.mp (Bool.eq_false_iff.mpr hany) row hrow
    rw [beq_iff_eq] at hall
    exact hall (hrowid.trans hx1)

/-- After the update, the rows carrying a different id are exactly the
ones that carried a different id before. -/
theorem filter_ne_map_replaceRow (id : String) (blob : List Nat) (expiry : Int)
    (tbl : List Row) :
    (tbl.map (replaceRow id blob expiry)).filter (fun row => !(row.id == id)) =
      tbl.filter (fun row => !(row.id == id)) := by
  induction tbl with
  | nil => rfl
  | cons head rest ih =>
    rw [List.map_cons, List.filter_cons, List.filter_cons]
    by_cases h : head.id = id
    · have h1 : (!((replaceRow id blob expiry head).id == id)) = false := by
        simp [replaceRow_id, h]
      have h2 : (!(head.id == id)) = false := by simp [h]
      rw [h1, h2, if_neg (by simp), if_neg (by simp)]
      exact ih
    · rw [replaceRow_of_ne h]
      have h2 : (!(head.id == id)) = true := by simp [h]
      rw [h2, if_pos rfl, if_pos rfl, ih]

/-- On a table with pairwise distinct ids that does contain the key, the
update leaves exactly one row with the key, holding the new values. -/
theorem filter_id_map_replaceRow (id : String) (blob : List Nat) (expiry : Int)
    (tbl : List Row) (hnodup : (tbl.map Row.id).Nodup)
    (hany : tbl.any (fun row => row.id == id) = true) :
    (tbl.map (replaceRow id blob expiry)).filter (fun row => row.id == id) =
      [{ id := id, data := blob, expiry_date := expiry }] := by
  induction tbl with
  | nil => simp at hany
  | cons head rest ih =>
    rw [List.map_cons, List.nodup_cons] at hnodup
    rw [List.map_cons, List.filter_cons]
    by_cases h : head.id = id
    · have hrestnil :
          (rest.map (replaceRow id blob expiry)).filter (fun row => row.id == id) = [] := by
        rw [List.filter_eq_nil_iff]
        intro x hx
        obtain ⟨r', hr', hfx⟩ := List.mem_map.mp hx
        rw [← hfx, beq_iff_eq, replaceRow_id]
        intro hrid
        refine hnodup.1 ?_
        rw [h, ← hrid]
        exact List.mem_map_of_mem Row.id hr'
      have hkeep : ((replaceRow id blob expiry head).id == id) = true := by
        rw [replaceRow_id]; exact beq_iff_eq.mpr h
      rw [hkeep, if_pos rfl, hrestnil, replaceRow_of_eq h]
    · have hany2 : rest.any (fun row => row.id == id) = true := by
        rcases List.any_eq_true.mp hany with ⟨x, hx, hpx⟩
        rcases List.mem_cons.mp hx with hxh | hxr
        · exact absurd (beq_iff_eq.mp (hxh ▸ hpx)) h
        · exact List.any_eq_true.mpr ⟨x, hxr, hpx⟩
      have hdrop : ((replaceRow id blob expiry head).id == id) = false := by
        rw [replaceRow_id]; exact beq_eq_false_iff_ne.mpr h
      rw [hdrop, if_neg (by simp)]
      exact ih hnodup.2 hany2

/-- After an upsert on a table with pairwise distinct ids there is
exactly one row with the upserted id, and it holds the upserted values. -/
theorem upsert_filter_id (id : String) (blob : List Nat) (expiry : Int) (tbl : List Row)
    (hnodup : (tbl.map Row.id).Nodup) :
    (upsert id blob expiry tbl).filter (fun row => row.id == id) =
      [{ id := id, data := blob, expiry_date := expiry }] := by
  unfold upsert; split
  case isTrue hany => exact filter_id_map_replaceRow id blob expiry tbl hnodup hany
  case isFalse hany =>
    rw [List.filter_append]
    have h1 : tbl.filter (fun row => row.id == id) = [] := by
      rw [List.filter_eq_nil_iff]
      intro a ha
      have := List.any_eq_false.mp (Bool.eq_false_iff.mpr hany) a ha
      simpa using this
    rw [h1]
    simp

/-- An upsert leaves the rows with any other id exactly as they were. -/
theorem upsert_filter_ne (id : String) (blob : List Nat) (expiry : Int) (tbl : List Row) :
    (upsert id blob expiry tbl).filter (fun row => !(row.id == id)) =
      tbl.filter (fun row => !(row.id == id)) := by
  unfold upsert; split
  case isTrue => exact filter_ne_map_replaceRow id blob expiry tbl
  case isFalse => rw [List.filter_append]; simp

/-- Two successive updates of the same key collapse to the second. -/
theorem replaceRow_replaceRow (id : String) (b1 b2 : List Nat) (e1 e2 : Int) (row : Row) :
    replaceRow id b2 e2 (replaceRow id b1 e1 row) = replaceRow id b2 e2 row := by
  by_cases h : row.id = id
  · have h1 : replaceRow id b2 e2 { id := id, data := b1, expiry_date := e1 } =
        { id := id, data := b2, expiry_date := e2 } := replaceRow_of_eq rfl
    rw [replaceRow_of_eq h, h1, replaceRow_of_eq h]
  · rw [replaceRow_of_ne h]

/-- The branch of `upsert` taken when the key is already present. -/
theorem upsert_of_any_true {id : String} {tbl : List Row} (blob : List Nat) (expiry : Int)
    (hany : tbl.any (fun row => row.id == id) = true) :
    upsert id blob expiry tbl = tbl.map (replaceRow id blob expiry) := by
  unfold upsert; rw [if_pos hany]

/-- The branch of `upsert` taken when the key is absent. -/
theorem upsert_of_any_false {id : String} {tbl : List Row} (blob : List Nat) (expiry : Int)
    (hany : tbl.any (fun row => row.id == id) = false) :
    upsert id blob expiry tbl = tbl ++ [{ id := id, data := blob, expiry_date := expiry }] := by
  unfold upsert; rw [if_neg (by simp [hany])]

/-- Two successive upserts of the same key collapse to the second: the
second save fully overwrites the first. -/
theorem upsert_upsert (id : String) (b1 b2 : List Nat) (e1 e2 : Int) (tbl : List Row) :
    upsert id b2 e2 (upsert id b1 e1 tbl) = upsert id b2 e2 tbl := by
  by_cases hany : tbl.any (fun row => row.id == id) = true
  · have hany2 : (tbl.map (replaceRow id b1 e1)).any (fun row => row.id == id) = true := by
      rcases List.any_eq_true.mp hany with ⟨x, hx, hpx⟩
      refine List.any_eq_true.mpr ⟨replaceRow id b1 e1 x, List.mem_map_of_mem _ hx, ?_⟩
      rw [replaceRow_id]; exact hpx
    rw [upsert_of_any_true b1 e1 hany, upsert_of_any_true b2 e2 hany2,
      upsert_of_any_true b2 e2 hany, List.map_map]
    exact List.map_congr_left (fun a _ => replaceRow_replaceRow id b1 b2 e1 e2 a)
  · have hanyF : tbl.any (fun row => row.id == id) = false := Bool.eq_false_iff.mpr hany
    have hrow : ({ id := id, data := b1, expiry_date := e1 } : Row) ∈
        tbl ++ [({ id := id, data := b1, expiry_date := e1 } : Row)] := by simp
    have hany2 :
        (tbl ++ [({ id := id, data := b1, expiry_date := e1 } : Row)]).any
          (fun row => row.id == id) = true :=
      List.any_eq_true.mpr
        ⟨({ id := id, data := b1, expiry_date := e1 } : Row), hrow, by simp⟩
    rw [upsert_of_any_false b1 e1 hanyF, upsert_of_any_true b2 e2 hany2,
      upsert_of_any_false b2 e2 hanyF, List.map_append]
    have hall := List.any_eq_false.mp hanyF
    congr 1
    · have hmapid : tbl.map (replaceRow id b2 e2) = tbl.map (fun a => a) := by
        refine List.map_congr_left (fun a ha => ?_)
        have := hall a ha
        rw [beq_iff_eq] at this
        exact replaceRow_of_ne this
      rw [hmapid, List.map_id']
    · simp [replaceRow]

/-- `create schema if not exists` makes the schema present. -/
theorem mem_createSchemaIfNotExists (name : String) (db : SchemaDB) :
    name ∈ (createSchemaIfNotExists name db).schemas := by
  unfold createSchemaIfNotExists; split
  · assumption
  · simp

/-- `create schema if not exists` on a present schema changes nothing. -/
theorem createSchemaIfNotExists_of_mem {name : String} {db : SchemaDB}
    (h : name ∈ db.schemas) : createSchemaIfNotExists name db = db := by
  simp [createSchemaIfNotExists, h]

/-- `create table if not exists` does not touch the set of schemas. -/
theorem schemas_createTableIfNotExists (sn tn : String) (db : SchemaDB) :
    (createTableIfNotExists sn tn db).schemas = db.schemas := by
  unfold createTableIfNotExists; split <;> rfl

/-- `create table if not exists` makes the table present. -/
theorem mem_createTableIfNotExists (sn tn : String) (db : SchemaDB) :
    (sn, tn) ∈ (createTableIfNotExists sn tn db).tables := by
  unfold createTableIfNotExists; split
  · assumption
  · simp

/-- `create table if not exists` on a present table changes nothing. -/
theorem createTableIfNotExists_of_mem {sn tn : String} {db : SchemaDB}
    (h : (sn, tn) ∈ db.tables) : createTableIfNotExists sn tn db = db := by
  simp [createTableIfNotExists, h]

/-! ## Claims -/

/-- C5: if encoding the record fails, `save` returns an `Encode` error,
issues no statement to the backend, and leaves the stored table
unchanged — whatever the backend would have answered. -/
theorem save_encode_failure_no_statement (c : Codec) (r : Record) (tbl : List Row)
    (backend : Option Nat) (e : Nat) (henc : c.encode r = .error e) :
    MySqlStore.save c backend r tbl =
      ⟨.error (.Encode e), tbl, 0⟩ := by
  simp [MySqlStore.save, henc]

/-- Witness for C5: encoding a record the test codec rejects makes
`save` fail with `Encode 0`, leave the one-row table untouched and issue
zero statements. -/
theorem save_encode_failure_no_statement_witness :
    testCodec.encode { id := "z", data := [], expiry_date := 0 } = .error 0 ∧
      MySqlStore.save testCodec none { id := "z", data := [], expiry_date := 0 }
          [{ id := "a", data := [7], expiry_date := 10 }] =
        ⟨.error (.Encode 0), [{ id := "a", data := [7], expiry_date := 10 }], 0⟩ :=
  ⟨by rfl, save_encode_failure_no_statement testCodec _ _ none 0 (by rfl)⟩

/-- Counterexample to C2 as stated: a row whose `expiry_date` equals the
current time is NOT removed by `delete_expired`, because the statement's
predicate is the strict `expiry_date < utc_timestamp()`; the claim says
every row with `expiry_date ≤ now` is deleted. -/
theorem delete_expired_boundary_cex :
    ({ id := "a", data := [], expiry_date := 0 } : Row).expiry_date ≤ 0 ∧
      MySqlStore.delete_expired none 0 [{ id := "a", data := [], expiry_date := 0 }] =
        .ok [{ id := "a", data := [], expiry_date := 0 }] := by
  constructor
  · decide
  · rfl

/-- C2 (amended): `delete_expired` removes exactly the rows whose
`expiry_date` is strictly before the current time; every row whose
`expiry_date` is at or after the current time stays. -/
theorem delete_expired_removes_strictly_expired (now : Int) (tbl : List Row) :
    ∃ tbl', MySqlStore.delete_expired none now tbl = .ok tbl' ∧
      ∀ row ∈ tbl, (row ∈ tbl' ↔ now ≤ row.expiry_date) := by
  refine ⟨tbl.filter fun row => !(decide (row.expiry_date < now)), rfl, ?_⟩
  intro row hrow
  simp [List.mem_filter, hrow, not_lt]

/-- Witness for C2 (amended): on a two-row table with one past and one
future expiry, purging at time 0 keeps the future row. -/
theorem delete_expired_removes_strictly_expired_witness :
    ∃ tbl', MySqlStore.delete_expired none 0
        [{ id := "a", data := [], expiry_date := -1 },
         { id := "b", data := [], expiry_date := 5 }] = .ok tbl' ∧
      ({ id := "b", data := [], expiry_date := 5 } : Row) ∈ tbl' := by
  obtain ⟨tbl', h, hmem⟩ := delete_expired_removes_strictly_expired 0
    [{ id := "a", data := [], expiry_date := -1 },
     { id := "b", data := [], expiry_date := 5 }]
  refine ⟨tbl', h, ?_⟩
  exact (hmem _ (by simp)).mpr (by decide)

/-- C1: for every session id, `load` returns `Ok(Some r)` exactly when a
row with that id exists whose `expiry_date` is strictly greater than the
current time (and its blob decodes to `r`); it returns `Ok(None)` both
when no row with that id exists and when every row with that id is
expired — the two cases produce the same observable answer. -/
theorem load_matches_unexpired_iff (c : Codec) (session_id : String) (now : Int)
    (tbl : List Row) (hnodup : (tbl.map Row.id).Nodup) :
    (MySqlStore.load c none session_id now tbl = .ok none ↔
      ∀ row ∈ tbl, row.id = session_id → row.expiry_date ≤ now)
    ∧ ∀ r : Record, (MySqlStore.load c none session_id now tbl = .ok (some r) ↔
      ∃ row ∈ tbl, row.id = session_id ∧ now < row.expiry_date ∧
        c.decode row.data = .ok r) :=
  ⟨load_ok_none_iff c session_id now tbl,
    fun r => load_ok_some_iff c session_id now tbl hnodup r⟩

/-- Witness for C1: on the one-row table holding `rec0`'s blob, a
never-saved id loads as `None`, the stored id loads as `None` after its
expiry, and loads as `Some rec0` before it. -/
theorem load_matches_unexpired_iff_witness :
    (([{ id := "a", data := [7], expiry_date := 10 }] : List Row).map Row.id).Nodup ∧
      MySqlStore.load testCodec none "missing" 0
          [{ id := "a", data := [7], expiry_date := 10 }] = .ok none ∧
      MySqlStore.load testCodec none "a" 20
          [{ id := "a", data := [7], expiry_date := 10 }] = .ok none ∧
      MySqlStore.load testCodec none "a" 0
          [{ id := "a", data := [7], expiry_date := 10 }] = .ok (some rec0) := by
  refine ⟨by decide, ?_, ?_, ?_⟩
  · exact (load_matches_unexpired_iff testCodec "missing" 0 _ (by decide)).1.mpr
      (by decide)
  · exact (load_matches_unexpired_iff testCodec "a" 20 _ (by decide)).1.mpr
      (by decide)
  · exact ((load_matches_unexpired_iff testCodec "a" 0 _ (by decide)).2 rec0).mpr
      ⟨{ id := "a", data := [7], expiry_date := 10 }, by decide, by decide, by decide, by rfl⟩

/-- C9: a row whose `expiry_date` equals the evaluation timestamp is
invisible to `load` (whose predicate is the strict `expiry_date > now`)
yet is not removed by `delete_expired` (whose predicate is the strict
`expiry_date < now`): at that exact instant the row is neither loadable
nor purgeable. -/
theorem boundary_row_invisible_unpurged (c : Codec) (now : Int) (tbl : List Row)
    (row : Row) (hmem : row ∈ tbl) (hexp : row.expiry_date = now)
    (honly : ∀ r' ∈ tbl, r'.id = row.id → r'.expiry_date = now) :
    MySqlStore.load c none row.id now tbl = .ok none ∧
      ∃ tbl', MySqlStore.delete_expired none now tbl = .ok tbl' ∧ row ∈ tbl' := by
  constructor
  · exact (load_ok_none_iff c row.id now tbl).mpr
      (fun r' hr' hid => le_of_eq (honly r' hr' hid))
  · refine ⟨tbl.filter fun r' => !(decide (r'.expiry_date < now)), rfl, ?_⟩
    exact List.mem_filter.mpr ⟨hmem, by simp [hexp]⟩

/-- Witness for C9: a single row expiring exactly at time 10 is loaded
as `None` at time 10 and survives `delete_expired` at time 10. -/
theorem boundary_row_invisible_unpurged_witness :
    MySqlStore.load testCodec none "a" 10
        [{ id := "a", data := [7], expiry_date := 10 }] = .ok none ∧
      ∃ tbl', MySqlStore.delete_expired none 10
          [{ id := "a", data := [7], expiry_date := 10 }] = .ok tbl' ∧
        ({ id := "a", data := [7], expiry_date := 10 } : Row) ∈ tbl' :=
  boundary_row_invisible_unpurged testCodec 10
    [{ id := "a", data := [7], expiry_date := 10 }]
    { id := "a", data := [7], expiry_date := 10 }
    (by decide) (by decide) (by decide)

/-- C7: `delete` removes at most one row (under the primary-key
invariant), keeps exactly the rows with a different id, succeeds whether
or not a row with the id exists, is idempotent, and can only fail with a
wrapped backend (`Sqlx`) error. -/
theorem delete_idempotent_at_most_one (session_id : String) (tbl : List Row)
    (backend : Option Nat) (hnodup : (tbl.map Row.id).Nodup) :
    (∃ tbl', MySqlStore.delete none session_id tbl = .ok tbl'
      ∧ tbl.length ≤ tbl'.length + 1
      ∧ (∀ row ∈ tbl, row.id ≠ session_id → row ∈ tbl')
      ∧ (∀ row ∈ tbl', row ∈ tbl ∧ row.id ≠ session_id)
      ∧ MySqlStore.delete none session_id tbl' = .ok tbl')
    ∧ ∀ e, MySqlStore.delete backend session_id tbl = .error e →
        ∃ n, e = SqlxStoreError.Sqlx n := by
  constructor
  · refine ⟨tbl.filter fun row => !(row.id == session_id), rfl, ?_, ?_, ?_, ?_⟩
    · exact length_le_delete_length_add_one session_id tbl hnodup
    · intro row hrow hne
      exact List.mem_filter.mpr ⟨hrow, by simpa using hne⟩
    · intro row hrow
      have h := List.mem_filter.mp hrow
      exact ⟨h.1, by simpa using h.2⟩
    · show Except.ok (List.filter _ (List.filter _ tbl)) = _
      rw [List.filter_filter]
      simp
  · intro e he
    cases backend with
    | none => simp [MySqlStore.delete] at he
    | some n =>
      refine ⟨n, ?_⟩
      simpa [MySqlStore.delete] using he.symm

/-- Witness for C7: deleting a present id from a two-row table removes
exactly that row, and deleting it again changes nothing. -/
theorem delete_idempotent_at_most_one_witness :
    (([{ id := "a", data := [7], expiry_date := 10 },
        { id := "b", data := [8], expiry_date := 20 }] : List Row).map Row.id).Nodup ∧
      ∃ tbl', MySqlStore.delete none "a"
          [{ id := "a", data := [7], expiry_date := 10 },
           { id := "b", data := [8], expiry_date := 20 }] = .ok tbl' ∧
        MySqlStore.delete none "a" tbl' = .ok tbl' := by
  refine ⟨by decide, ?_⟩
  obtain ⟨⟨tbl', h1, _, _, _, h5⟩, _⟩ := delete_idempotent_at_most_one "a"
    [{ id := "a", data := [7], expiry_date := 10 },
     { id := "b", data := [8], expiry_date := 20 }] none (by decide)
  exact ⟨tbl', h1, h5⟩

/-- C3: `save` is an upsert keyed on id: after a save there is exactly
one row with the record's id, holding the saved blob and expiry; rows
with other ids are untouched; the primary-key invariant is preserved;
and saving a second record with the same id on top of the first yields
the same table as saving only the second — the content equals the
second save. -/
theorem save_upsert_unique_row (c : Codec) (r r2 : Record) (tbl : List Row)
    (blob blob2 : List Nat) (hnodup : (tbl.map Row.id).Nodup)
    (henc : c.encode r = .ok blob) (henc2 : c.encode r2 = .ok blob2)
    (hid : r2.id = r.id) :
    ∃ tbl', MySqlStore.save c none r tbl = ⟨.ok (), tbl', 1⟩
      ∧ (tbl'.map Row.id).Nodup
      ∧ tbl'.filter (fun row => row.id == r.id) =
          [{ id := r.id, data := blob, expiry_date := r.expiry_date }]
      ∧ tbl'.filter (fun row => !(row.id == r.id)) =
          tbl.filter (fun row => !(row.id == r.id))
      ∧ (MySqlStore.save c none r2 tbl').table = (MySqlStore.save c none r2 tbl).table := by
  refine ⟨upsert r.id blob r.expiry_date tbl, ?_, ?_, ?_, ?_, ?_⟩
  · simp [MySqlStore.save, henc]
  · exact upsert_nodup r.id blob r.expiry_date tbl hnodup
  · exact upsert_filter_id r.id blob r.expiry_date tbl hnodup
  · exact upsert_filter_ne r.id blob r.expiry_date tbl
  · show (MySqlStore.save c none r2 (upsert r.id blob r.expiry_date tbl)).table = _
    simp only [MySqlStore.save, henc2]
    rw [hid]
    exact upsert_upsert r.id blob blob2 r.expiry_date r2.expiry_date tbl

/-- Witness for C3: saving `rec0` into the empty table leaves one row
with its blob, and saving `rec1` (same id, different payload) on top
produces the same table as saving `rec1` alone. -/
theorem save_upsert_unique_row_witness :
    ∃ tbl', MySqlStore.save testCodec none rec0 [] = ⟨.ok (), tbl', 1⟩
      ∧ tbl'.filter (fun row => row.id == rec0.id) =
          [{ id := rec0.id, data := [7], expiry_date := rec0.expiry_date }]
      ∧ (MySqlStore.save testCodec none rec1 tbl').table =
          (MySqlStore.save testCodec none rec1 []).table := by
  obtain ⟨tbl', h1, _, h3, _, h5⟩ :=
    save_upsert_unique_row testCodec rec0 rec1 [] [7] [8]
      (by decide) (by rfl) (by rfl) (by decide)
  exact ⟨tbl', h1, h3, h5⟩

/-- C4: round-trip — after a successful `save` of `r`, loading `r.id` at
any time strictly before `r.expiry_date` returns `Some r`, provided the
codec decodes `r`'s encoding back to `r`. -/
theorem save_then_load_roundtrip (c : Codec) (r : Record) (tbl : List Row)
    (blob : List Nat) (now : Int) (hnodup : (tbl.map Row.id).Nodup)
    (henc : c.encode r = .ok blob) (hdec : c.decode blob = .ok r)
    (hnow : now < r.expiry_date) :
    MySqlStore.load c none r.id now (MySqlStore.save c none r tbl).table =
      .ok (some r) := by
  have htbl : (MySqlStore.save c none r tbl).table = upsert r.id blob r.expiry_date tbl := by
    simp [MySqlStore.save, henc]
  rw [htbl]
  refine (load_ok_some_iff c r.id now _ (upsert_nodup r.id blob r.expiry_date tbl hnodup) r).mpr ?_
  refine ⟨{ id := r.id, data := blob, expiry_date := r.expiry_date }, ?_, rfl, hnow, hdec⟩
  have hf := upsert_filter_id r.id blob r.expiry_date tbl hnodup
  have hmem : ({ id := r.id, data := blob, expiry_date := r.expiry_date } : Row) ∈
      (upsert r.id blob r.expiry_date tbl).filter (fun row => row.id == r.id) := by
    rw [hf]; exact List.mem_singleton.mpr rfl
  exact (List.mem_filter.mp hmem).1

/-- Witness for C4: saving `rec0` into the empty table and loading its
id at time 0 (before expiry 10) returns `Some rec0`. -/
theorem save_then_load_roundtrip_witness :
    (([] : List Row).map Row.id).Nodup ∧ (0 : Int) < rec0.expiry_date ∧
      MySqlStore.load testCodec none rec0.id 0
          (MySqlStore.save testCodec none rec0 []).table = .ok (some rec0) :=
  ⟨by decide, by decide,
    save_then_load_roundtrip testCodec rec0 [] [7] 0 (by decide) (by rfl) (by rfl) (by decide)⟩

/-- C10: `save` stores the encoding of the WHOLE record (id, data and
expiry included) as the row's blob, and `load` builds its answer solely
by decoding the fetched blob: the row's `id` and `expiry_date` columns
only filter the query, so the record returned is whatever the blob
decodes to, even when that record's embedded id or expiry differ from
the row's columns. -/
theorem load_returns_decoded_blob_only (c : Codec) (r : Record) (tbl : List Row)
    (blob : List Nat) (row : Row) (r2 : Record) (now : Int)
    (hnodup : (tbl.map Row.id).Nodup) (henc : c.encode r = .ok blob)
    (hmem : row ∈ tbl) (hexp : now < row.expiry_date)
    (hdec : c.decode row.data = .ok r2) :
    (MySqlStore.save c none r tbl).table.filter (fun x => x.id == r.id) =
        [{ id := r.id, data := blob, expiry_date := r.expiry_date }]
      ∧ MySqlStore.load c none row.id now tbl = .ok (some r2) := by
  constructor
  · have htbl : (MySqlStore.save c none r tbl).table =
        upsert r.id blob r.expiry_date tbl := by
      simp [MySqlStore.save, henc]
    rw [htbl]
    exact upsert_filter_id r.id blob r.expiry_date tbl hnodup
  · exact (load_ok_some_iff c row.id now tbl hnodup r2).mpr ⟨row, hmem, rfl, hexp, hdec⟩

/-- Witness for C10: a row with id "b" whose blob `[7]` decodes to
`rec0` (embedded id "a", embedded expiry 10, both differing from the
row's columns) loads under id "b" as `Some rec0`. -/
theorem load_returns_decoded_blob_only_witness :
    rec0.id ≠ "b" ∧ rec0.expiry_date ≠ 5 ∧
      MySqlStore.load testCodec none "b" 0
          [{ id := "b", data := [7], expiry_date := 5 }] = .ok (some rec0) := by
  refine ⟨by decide, by decide, ?_⟩
  exact (load_returns_decoded_blob_only testCodec rec0
      [{ id := "b", data := [7], expiry_date := 5 }] [7]
      { id := "b", data := [7], expiry_date := 5 } rec0 0
      (by decide) (by rfl) (by decide) (by decide) (by rfl)).2

/-- C6: `migrate` runs its two `if not exists` DDL steps inside one
transaction: for every combination of statement/commit verdicts, either
the call fails and the committed DDL state is unchanged, or it succeeds
and both the schema and the table exist afterwards.  With a healthy
backend it always succeeds, and running it a second time succeeds and
leaves the DDL state exactly as the first run left it. -/
theorem migrate_transactional_idempotent (s : MySqlStore) (b1 b2 bc : Option Nat)
    (db : SchemaDB) :
    (((MySqlStore.migrate s b1 b2 bc db).2 = db
        ∧ ∃ e, (MySqlStore.migrate s b1 b2 bc db).1 = .error e)
      ∨ ((MySqlStore.migrate s b1 b2 bc db).1 = .ok ()
        ∧ s.schema_name ∈ (MySqlStore.migrate s b1 b2 bc db).2.schemas
        ∧ (s.schema_name, s.table_name) ∈ (MySqlStore.migrate s b1 b2 bc db).2.tables))
    ∧ (MySqlStore.migrate s none none none db).1 = .ok ()
    ∧ MySqlStore.migrate s none none none (MySqlStore.migrate s none none none db).2
        = (.ok (), (MySqlStore.migrate s none none none db).2) := by
  have hall : ∀ d : SchemaDB, MySqlStore.migrate s none none none d =
      (.ok (), createTableIfNotExists s.schema_name s.table_name
        (createSchemaIfNotExists s.schema_name d)) := fun d => rfl
  refine ⟨?_, ?_, ?_⟩
  · cases b1 with
    | some e => exact .inl ⟨rfl, e, rfl⟩
    | none =>
      cases b2 with
      | some e => exact .inl ⟨rfl, e, rfl⟩
      | none =>
        cases bc with
        | some e => exact .inl ⟨rfl, e, rfl⟩
        | none =>
          refine .inr ⟨rfl, ?_, ?_⟩
          · show s.schema_name ∈ (createTableIfNotExists s.schema_name s.table_name
              (createSchemaIfNotExists s.schema_name db)).schemas
            rw [schemas_createTableIfNotExists]
            exact mem_createSchemaIfNotExists s.schema_name db
          · exact mem_createTableIfNotExists s.schema_name s.table_name
              (createSchemaIfNotExists s.schema_name db)
  · rw [hall db]
  · rw [hall db, hall (createTableIfNotExists s.schema_name s.table_name
      (createSchemaIfNotExists s.schema_name db))]
    have hs : s.schema_name ∈ (createTableIfNotExists s.schema_name s.table_name
        (createSchemaIfNotExists s.schema_name db)).schemas := by
      rw [schemas_createTableIfNotExists]
      exact mem_createSchemaIfNotExists s.schema_name db
    rw [createSchemaIfNotExists_of_mem hs,
      createTableIfNotExists_of_mem
        (mem_createTableIfNotExists s.schema_name s.table_name
          (createSchemaIfNotExists s.schema_name db))]

/-- Witness for C6: migrating the default store against the empty DDL
state succeeds, and a second migration returns success with the state
unchanged. -/
theorem migrate_transactional_idempotent_witness :
    (MySqlStore.migrate MySqlStore.new none none none
        { schemas := [], tables := [] }).1 = .ok ()
    ∧ MySqlStore.migrate MySqlStore.new none none none
          (MySqlStore.migrate MySqlStore.new none none none
            { schemas := [], tables := [] }).2
        = (.ok (), (MySqlStore.migrate MySqlStore.new none none none
            { schemas := [], tables := [] }).2) :=
  (migrate_transactional_idempotent MySqlStore.new none none none
    { schemas := [], tables := [] }).2

/-- C8: the schema and table names used by every operation's SQL are the
store instance's configuration: `new` sets the fixed defaults
`tower_sessions` / `session`, a caller-chosen pair can be set at
construction, and each of the four statements interpolates exactly the
instance's pair. -/
theorem store_names_configurable :
    (MySqlStore.new.schema_name = "tower_sessions"
      ∧ MySqlStore.new.table_name = "session"
      ∧ MySqlStore.new = MySqlStore.with_names "tower_sessions" "session")
    ∧ (∀ sn tn : String, (MySqlStore.with_names sn tn).schema_name = sn
        ∧ (MySqlStore.with_names sn tn).table_name = tn)
    ∧ (∀ s : MySqlStore,
        s.save_query = (MySqlStore.with_names s.schema_name s.table_name).save_query
        ∧ s.load_query = (MySqlStore.with_names s.schema_name s.table_name).load_query
        ∧ s.delete_query = (MySqlStore.with_names s.schema_name s.table_name).delete_query
        ∧ s.delete_expired_query =
            (MySqlStore.with_names s.schema_name s.table_name).delete_expired_query)
    ∧ (∀ sn tn : String,
        (MySqlStore.with_names sn tn).load_query =
          "\n            select data from `" ++ sn ++ "`.`" ++ tn ++
            "`\n            where id = ? and expiry_date > ?\n            "
        ∧ (MySqlStore.with_names sn tn).delete_query =
          "delete from `" ++ sn ++ "`.`" ++ tn ++ "` where id = ?") :=
  ⟨⟨rfl, rfl, rfl⟩, fun _ _ => ⟨rfl, rfl⟩,
    fun _ => ⟨rfl, rfl, rfl, rfl⟩, fun _ _ => ⟨rfl, rfl⟩⟩
